import Mathlib

/-!
Verification of the Pipeline State & Notification Engine of the
agent-pipeline-visualizer repository.

The repository is a Next.js TypeScript frontend plus a Flask backend; the
frontend sources are embedded here directly.  TypeScript string-literal union
types are modelled as `String`, JavaScript `Record<string, T>` objects as
association lists `List (String × T)` in insertion order, optional / possibly
`undefined` fields as `Option`, and JavaScript numbers that hold timestamps or
counters as `Int`/`Nat` (the code only compares and copies them).  Module-level
mutable state is passed explicitly.
-/

namespace APV

/-- JavaScript `Record` lookup (`obj[key]`) over an insertion-ordered
association list. -/

def lookupEntry {α : Type} (l : List (String × α)) (k : String) : Option α :=
  match l with
  | [] => none
  | (k', v) :: rest => if k' = k then some v else lookupEntry rest k

/-- JavaScript `Record` update (`{...obj, [key]: v}`): overwrites an existing
key in place, otherwise appends the new key (insertion order semantics). -/

def setEntry {α : Type} (l : List (String × α)) (k : String) (v : α) :
    List (String × α) :=
  match l with
  | [] => [(k, v)]
  | (k', v') :: rest =>
    if k' = k then (k, v) :: rest else (k', v') :: setEntry rest k v

/-! ## `frontend/types/agent.ts` and the dependency gate

`Step` from `src/frontend/types/agent.ts`; `canRun` from
`src/frontend/components/StepCard.tsx` lines 26–27; the identical inline
computation of `AgentDashboard` (`src/frontend/app/agent/page.tsx` lines
309–313); and the `disabled` expression of the Run-Step button
(`StepCard.tsx` line 81). -/

/-- `Step` of `src/frontend/types/agent.ts` (status is one of `pending`,
`waiting_dependency`, `in_progress`, `waiting_input`, `completed`, `failed`). -/

structure AgentStep where
  id : String
  name : String
  description : String
  status : String
  requiresUserInput : Bool
  dependencies : List String
  group : Option String
  deriving DecidableEq

/-- `StepCard.tsx` lines 26–27:
`canRun = step.dependencies.length === 0 || step.dependencies.every(depId => completedSteps.includes(depId))`. -/

def canRun (step : AgentStep) (completedSteps : List String) : Bool :=
  step.dependencies.length = 0 ||
    step.dependencies.all (fun depId => completedSteps.contains depId)

/-- `agent/page.tsx` line 260 / 309: the `completedSteps` prop passed to
`StepCard` — ids of steps whose status is `completed`. -/

def completedStepIds (steps : List AgentStep) : List String :=
  (steps.filter (fun s => s.status == "completed")).map (fun s => s.id)

/-- `AgentDashboard` (`app/agent/page.tsx` lines 309–313): the inline `canRun`
for the selected step, with `dependencies = selectedStep.dependencies || []`
(the dependency list is always present in this model). -/

def dashboardCanRun (selectedStep : AgentStep) (steps : List AgentStep) : Bool :=
  let completedStepIdList := completedStepIds steps
  let dependencies := selectedStep.dependencies
  dependencies.length = 0 ||
    dependencies.all (fun depId => completedStepIdList.contains depId)

/-- `StepCard.tsx` line 81: `disabled={isRunning || !canRun}`. -/

def runStepButtonDisabled (isRunning : Bool) (step : AgentStep)
    (completedSteps : List String) : Bool :=
  isRunning || !(canRun step completedSteps)

/-! ## `StepProgressManager` (`src/frontend/src/lib/pipelineUtils.ts`,
shipped inside the `acknowledgmentHistory.ts` source bundle)

`normalizeStatus` (lines 324–328), `updatePipelineData` (333–351),
`updateStepData` (356–379) and `recalculateCompletedSteps` (384–395). -/

/-- `StepProgressManager.normalizeStatus` (lines 324–328):
maps `in_progress` to `running`, keeps `running`, passes everything else
through unchanged. -/

def normalizeStatus (status : String) : String :=
  if status = "in_progress" then "running"
  else if status = "running" then "running"
  else status

/-- `PipelineStep` of `pipelineUtils.ts`: every field optional at runtime
(the step map is built by merging partial updates).  `data` is an opaque
payload, modelled as an uninterpreted `Option String`. -/

structure MStep where
  name : Option String := none
  status : Option String := none
  message : Option String := none
  data : Option String := none
  timestamp : Option Int := none
  updated_at : Option Int := none
  deriving DecidableEq

/-- The `Partial<PipelineData>` snapshot held by a `StepProgressManager`
(`this.pipelineData`): only the fields the cited code touches. -/

structure ManagerData where
  id : String
  total_steps : Nat
  completed_steps : Nat
  steps : List (String × MStep)
  status : Option String := none
  lastUpdated : Option Int := none
  deriving DecidableEq

/-- The constructor / `reset` state of `StepProgressManager`
(`pipelineUtils.ts` lines 192–197). -/

def initialManagerData (pipelineId : String) (availableSteps : List String) :
    ManagerData :=
  { id := pipelineId
    total_steps := availableSteps.length
    completed_steps := 0
    steps := [] }

/-- A `Partial<PipelineData>` argument to `updatePipelineData`: `none` models
an absent (or `undefined`) field that the object spread leaves unchanged. -/

structure PipelinePatch where
  status : Option String := none
  completed_steps : Option Nat := none
  total_steps : Option Nat := none
  steps : Option (List (String × MStep)) := none
  deriving DecidableEq

/-- `recalculateCompletedSteps` (lines 384–395): count of stored steps whose
status is `completed`. -/

def countCompletedM (steps : List (String × MStep)) : Nat :=
  (steps.filter (fun e => e.2.status == some "completed")).length

/-- `StepProgressManager.updatePipelineData` (lines 333–351): normalizes a
present `status`, then object-spreads the patch over the held snapshot —
a supplied `completed_steps` (or `steps`) is copied in directly, with no
recalculation. -/

def updatePipelineData (st : ManagerData) (patch : PipelinePatch) (now : Int) :
    ManagerData :=
  let normalizedStatus := patch.status.map normalizeStatus
  { st with
    status := match normalizedStatus with
              | some s => some s
              | none => st.status
    completed_steps := patch.completed_steps.getD st.completed_steps
    total_steps := patch.total_steps.getD st.total_steps
    steps := patch.steps.getD st.steps
    lastUpdated := some now }

/-- A `stepData` argument to `updateStepData` (arbitrary partial step
fields; the code spreads it over the stored record). -/

structure StepPatch where
  status : Option String := none
  message : Option String := none
  data : Option String := none
  deriving DecidableEq

/-- `StepProgressManager.updateStepData` (lines 356–379): merges `stepData`
over the stored record, stamps `name`/`timestamp`, then runs
`recalculateCompletedSteps`. -/

def updateStepData (st : ManagerData) (stepName : String) (stepData : StepPatch)
    (now : Int) : ManagerData :=
  let old := lookupEntry st.steps stepName
  let merged : MStep :=
    { name := some stepName
      status := match stepData.status with
                | some s => some s
                | none => old.bind (fun r => r.status)
      message := match stepData.message with
                 | some m => some m
                 | none => old.bind (fun r => r.message)
      data := match stepData.data with
              | some d => some d
              | none => old.bind (fun r => r.data)
      timestamp := some now
      updated_at := old.bind (fun r => r.updated_at) }
  let steps' := setEntry st.steps stepName merged
  { st with
    steps := steps'
    completed_steps := countCompletedM steps' }

/-! ## Acknowledgment history (`src/frontend/src/lib/acknowledgmentHistory.ts`)

The module-level mutable array `acknowledgmentHistory` is passed explicitly;
`Date.now()` is the explicit `now` argument. -/

/-- `AcknowledgmentRecord` (`acknowledgmentHistory.ts` lines 4–10). -/

structure AcknowledgmentRecord where
  stepName : String
  pipelineId : String
  timestamp : Int
  comment : Option String := none
  userId : Option String := none
  deriving DecidableEq

/-- `addAcknowledgment` (lines 17–39): builds the record and prepends it
(`[record, ...acknowledgmentHistory]`). -/

def addAcknowledgment (stepName pipelineId : String) (comment userId : Option String)
    (now : Int) (history : List AcknowledgmentRecord) : List AcknowledgmentRecord :=
  let record : AcknowledgmentRecord :=
    { stepName := stepName
      pipelineId := pipelineId
      timestamp := now
      comment := comment
      userId := userId }
  record :: history

/-- `getAcknowledgmentHistory` (lines 59–82): filter by whichever of
`pipelineId` / `stepName` are supplied. -/

def getAcknowledgmentHistory (pipelineId stepName : Option String)
    (history : List AcknowledgmentRecord) : List AcknowledgmentRecord :=
  match pipelineId, stepName with
  | some p, some s =>
    history.filter (fun record => record.pipelineId == p && record.stepName == s)
  | some p, none => history.filter (fun record => record.pipelineId == p)
  | none, some s => history.filter (fun record => record.stepName == s)
  | none, none => history

/-! ## WebSocket client view (`src/frontend/src/lib/websocket.ts`)

The first (untyped) variant of `websocket.ts`, whose `usePipelineSubscription`
the cited line numbers refer to.  React's `setPipelineData(prev => ...)`
updater functions become pure functions `Option Pipeline → Option Pipeline`;
the held state starts as `null` (`none`). -/

/-- A step record as carried in pipeline snapshots and `step_updated`
payloads (`Step` of the typed `websocket.ts` variant: `status`, `message`,
`updated_at`, optional `data`).  `data` is an opaque payload. -/

structure WsStep where
  status : String
  message : String
  updated_at : Int
  data : Option String := none
  deriving DecidableEq

/-- `Pipeline` of `websocket.ts`: the client-side pipeline view. -/

structure WsPipeline where
  id : String
  agent_name : String
  status : String
  created_at : Int
  completed_steps : Int
  total_steps : Int
  steps : List (String × WsStep)
  deriving DecidableEq

/-- JavaScript `x || d` on a numeric field: `undefined`/missing and `0` are
falsy and fall back to `d`. -/

def jsOrInt (x : Option Int) (d : Int) : Int :=
  match x with
  | none => d
  | some n => if n = 0 then d else n

/-- Payload of a `step_updated` event as read by `handleStepUpdate`
(`websocket.ts` lines 136–168): `total_steps` may be absent or `0` (falsy). -/

structure StepUpdatedEvent where
  pipeline_id : String
  step : String
  step_data : WsStep
  pipeline_status : String
  completed_steps : Int
  total_steps : Option Int := none
  deriving DecidableEq

/-- Payload of a `step_started` event as read by `handleStepStarted`
(lines 171–206): `timestamp` may be absent or `0` (falsy). -/

structure StepStartedEvent where
  pipeline_id : String
  step : String
  timestamp : Option Int := none
  deriving DecidableEq

/-- `handleStepUpdate` (`websocket.ts` lines 136–168): for the subscribed
pipeline, replace the one step record, overwrite `status` and
`completed_steps`, and take `total_steps` from the event only when truthy
(`data.total_steps || updatedPipeline.total_steps`). -/

def handleStepUpdate (pipelineId : String) (e : StepUpdatedEvent)
    (prev : Option WsPipeline) : Option WsPipeline :=
  if e.pipeline_id = pipelineId then
    match prev with
    | none => none
    | some p =>
      some { p with
        steps := setEntry p.steps e.step e.step_data
        status := e.pipeline_status
        completed_steps := e.completed_steps
        total_steps := jsOrInt e.total_steps p.total_steps }
  else prev

/-- `handleStepStarted` (`websocket.ts` lines 171–206): mark the step
`running` with a fresh message and timestamp (`data.timestamp ||
Date.now() / 1000`, the latter passed in as `now`), and set the pipeline
status to `in_progress` unless it is already `completed` or `failed`. -/

def handleStepStarted (pipelineId : String) (d : StepStartedEvent) (now : Int)
    (prev : Option WsPipeline) : Option WsPipeline :=
  if d.pipeline_id = pipelineId then
    match prev with
    | none => none
    | some p =>
      let old := lookupEntry p.steps d.step
      let newStep : WsStep :=
        { status := "running"
          message := "Running step " ++ d.step ++ "..."
          updated_at := jsOrInt d.timestamp now
          data := old.bind (fun r => r.data) }
      let steps' := setEntry p.steps d.step newStep
      let status' :=
        if p.status ≠ "completed" ∧ p.status ≠ "failed" then "in_progress"
        else p.status
      some { p with steps := steps', status := status' }
  else prev

/-- The side effects of `usePipelineSubscription`'s effect body, in source
order: the subscription setup (lines 96–121 and 219–221) and its cleanup
(lines 224–232). -/

inductive ClientAction where
  | emitSubscribe (pipelineId : String)
  | fetchSnapshot (pipelineId : String)
  | listen (event : String)
  | emitUnsubscribe (pipelineId : String)
  | unlisten (event : String)
  deriving DecidableEq

/-- Setup order of `usePipelineSubscription` (lines 96–121, 219–221):
`fetchInitialData` first emits `subscribe_pipeline`, then fetches the
`/api/agent/status/<id>` snapshot; the three `socket.on` listeners are
registered after it is invoked. -/

def subscriptionSetup (pipelineId : String) : List ClientAction :=
  [ClientAction.emitSubscribe pipelineId,
   ClientAction.fetchSnapshot pipelineId,
   ClientAction.listen "pipeline_updated",
   ClientAction.listen "step_updated",
   ClientAction.listen "step_started"]

/-- Cleanup of `usePipelineSubscription` (lines 224–232): emit
`unsubscribe_pipeline`, then `socket.off` each registered listener. -/

def subscriptionCleanup (pipelineId : String) : List ClientAction :=
  [ClientAction.emitUnsubscribe pipelineId,
   ClientAction.unlisten "pipeline_updated",
   ClientAction.unlisten "step_updated",
   ClientAction.unlisten "step_started"]

/-- The bus events a list of actions registers listeners for. -/

def listenedEvents (actions : List ClientAction) : List String :=
  actions.filterMap (fun a =>
    match a with
    | ClientAction.listen e => some e
    | _ => none)

/-- The bus events a list of actions removes listeners for. -/

def removedEvents (actions : List ClientAction) : List String :=
  actions.filterMap (fun a =>
    match a with
    | ClientAction.unlisten e => some e
    | _ => none)

/-! ## `getOrderedSteps` (`src/frontend/src/app/agent/page.tsx` lines 244–268)

`Object.entries(pipelineData.steps)` is the insertion-ordered association
list; the comparator falls back from the `updated_at` timestamps to
`localeCompare(..., { numeric: true, sensitivity: "base" })` on the step
names whenever the timestamps are within one second of each other.
`localeCompare` with those options is modelled over ASCII ids as a
case-insensitive comparison that compares maximal digit runs numerically.
`Array.prototype.sort` is modelled as a stable insertion sort (for an
inconsistent comparator ECMAScript leaves the order implementation-defined;
on any two elements every comparison sort agrees with this model). -/

/-- One collation token: a maximal digit run (compared numerically) or a
single lowercased character. -/

abbrev NameToken := Sum Nat Char

/-- Tokenizer for the `numeric`, case-insensitive collation: accumulates
digit runs into numbers and lowercases other characters. -/

def tokenizeAux : List Char → Option Nat → List NameToken
  | [], none => []
  | [], some n => [Sum.inl n]
  | c :: rest, acc =>
    if c.isDigit then
      tokenizeAux rest (some ((acc.getD 0) * 10 + (c.toNat - 48)))
    else
      match acc with
      | none => Sum.inr c.toLower :: tokenizeAux rest none
      | some n => Sum.inl n :: Sum.inr c.toLower :: tokenizeAux rest none

def tokenize (s : String) : List NameToken :=
  tokenizeAux s.data none

/-- Lexicographic comparison of token lists; digit runs order before
characters (as in Unicode order, digits precede letters). -/

def tokCmp : List NameToken → List NameToken → Int
  | [], [] => 0
  | [], _ :: _ => -1
  | _ :: _, [] => 1
  | x :: xs, y :: ys =>
    match x, y with
    | Sum.inl m, Sum.inl n =>
      if m < n then -1 else if n < m then 1 else tokCmp xs ys
    | Sum.inl _, Sum.inr _ => -1
    | Sum.inr _, Sum.inl _ => 1
    | Sum.inr c, Sum.inr d =>
      if c < d then -1 else if d < c then 1 else tokCmp xs ys

/-- `a.localeCompare(b, undefined, { numeric: true, sensitivity: "base" })`
over ASCII step ids. -/

def localeCompareNumericBase (a b : String) : Int :=
  tokCmp (tokenize a) (tokenize b)

/-- The comparator of `getOrderedSteps` (lines 252–267): timestamp order when
the `updated_at` values differ by more than one second, otherwise the
locale comparison of the step names. -/

def stepCompare (a b : String × WsStep) : Int :=
  let stepATime := a.2.updated_at
  let stepBTime := b.2.updated_at
  if (stepATime - stepBTime).natAbs > 1 then stepATime - stepBTime
  else localeCompareNumericBase a.1 b.1

/-- Stable insertion into a sorted prefix: place `x` before the first element
it compares strictly below. -/

def insertCmp {α : Type} (cmp : α → α → Int) (x : α) : List α → List α
  | [] => [x]
  | h :: t => if cmp x h < 0 then x :: h :: t else h :: insertCmp cmp x t

/-- Stable insertion sort by a JavaScript-style comparator. -/

def sortCmp {α : Type} (cmp : α → α → Int) (l : List α) : List α :=
  l.foldl (fun acc x => insertCmp cmp x acc) []

/-- `getOrderedSteps` (lines 244–268): `[]` when there is no pipeline view,
otherwise the sorted entry list. -/

def getOrderedSteps (pipelineData : Option WsPipeline) : List (String × WsStep) :=
  match pipelineData with
  | none => []
  | some pd => sortCmp stepCompare pd.steps

/-! ## The backend Pipeline State & Notification Engine, modelled from the spec

The repository's Flask backend (the authoritative `PipelineState`,
`acknowledge` handler and Flask-SocketIO event emission) is not included in
the sources; only its HTTP contract (`agent/INTEGRATION_GUIDE.md`), its test
harness and its frontend callers are.  The definitions below are therefore
modelled from the spec (§3, §4.3, §4.4, §7): the step state machine with
dependency gating and acknowledgment gating, and the per-pipeline ordered
event log of the EventBus.  Mutations to a single pipeline are serialized
(spec §5), so sequential application models the per-pipeline critical
section. -/

/-- Modelled from the spec: `StepDefinition` (§3) — the immutable step graph
entry with its dependency edges and acknowledgment flag. -/

structure StepDef where
  id : String
  dependencies : List String
  requiresAcknowledgment : Bool
  deriving DecidableEq

/-- Modelled from the spec: the `StepGraph` as the ordered list of step
definitions supplied by the config loader (§6). -/

abbrev StepGraph := List StepDef

/-- Modelled from the spec: `StepRecord` (§3) — mutable status, optional
message and opaque payload, `updatedAt` timestamp. -/

structure CoreStep where
  status : String
  message : Option String := none
  data : Option String := none
  updated_at : Int
  deriving DecidableEq

/-- Modelled from the spec: `Pipeline` (§3) — per-pipeline record; a step
absent from `steps` is implicitly `pending`. -/

structure CorePipeline where
  id : String
  agentName : String
  createdAt : Int
  totalSteps : Nat
  steps : List (String × CoreStep)
  status : String
  deriving DecidableEq

/-- Modelled from the spec: the event a successful transition emits on the
pipeline's topic (§4.3 rule 7): the new `StepRecord`, the step id and the
recomputed completion counters. -/

structure CoreEvent where
  pipelineId : String
  stepId : String
  record : CoreStep
  pipelineStatus : String
  completedSteps : Nat
  totalSteps : Nat
  deriving DecidableEq

/-- Modelled from the spec: the error taxonomy of §7 that `applyTransition`
and `acknowledge` can surface (pipeline lookup happens in the registry and
is outside this per-pipeline model). -/

inductive TransitionError where
  | UnknownStep
  | DependencyNotMet
  | NotAwaitingAcknowledgment
  | InvalidTransition
  deriving DecidableEq

def findStep (g : StepGraph) (stepId : String) : Option StepDef :=
  g.find? (fun sd => sd.id == stepId)

/-- Modelled from the spec: the observed status of a step — absence of a
`StepRecord` means implicitly `pending` (§3). -/

def statusOf (p : CorePipeline) (stepId : String) : String :=
  match lookupEntry p.steps stepId with
  | some r => r.status
  | none => "pending"

def countCompletedCore (steps : List (String × CoreStep)) : Nat :=
  (steps.filter (fun e => e.2.status == "completed")).length

/-- Modelled from the spec: the pipeline-status recomputation of §4.3 rule 6:
`failed` if any step is `failed`, else `completed` if every step in the
graph is `completed`, else `in_progress`. -/

def recomputePipelineStatus (g : StepGraph) (steps : List (String × CoreStep)) :
    String :=
  if steps.any (fun e => e.2.status == "failed") then "failed"
  else if g.all (fun sd =>
      (match lookupEntry steps sd.id with
       | some r => r.status
       | none => "pending") == "completed") then "completed"
  else "in_progress"

/-- Modelled from the spec: `PipelineState.applyTransition` (§4.3 rules 2–7),
absent from the shipped sources.  Checks the step exists, gates entry to
`in_progress` on completed dependencies (`DependencyNotMet`), rewrites a
`completed` request on an acknowledgment-gated step to
`waiting_for_acknowledgment`, overwrites `message`/`data` when supplied,
stamps `updatedAt`, recomputes the pipeline status and counters and returns
the single event to publish. -/

def applyTransition (g : StepGraph) (p : CorePipeline)
    (stepId requested : String) (message dataPayload : Option String)
    (now : Int) : Except TransitionError (CorePipeline × CoreEvent) :=
  match findStep g stepId with
  | none => Except.error TransitionError.UnknownStep
  | some sd =>
    if requested == "in_progress" &&
        !(sd.dependencies.all (fun dep => statusOf p dep == "completed")) then
      Except.error TransitionError.DependencyNotMet
    else
      let effective :=
        if requested == "completed" && sd.requiresAcknowledgment then
          "waiting_for_acknowledgment"
        else requested
      let old := lookupEntry p.steps stepId
      let newRec : CoreStep :=
        { status := effective
          message := match message with
                     | some m => some m
                     | none => old.bind (fun r => r.message)
          data := match dataPayload with
                  | some d => some d
                  | none => old.bind (fun r => r.data)
          updated_at := now }
      let steps' := setEntry p.steps stepId newRec
      let pstatus := recomputePipelineStatus g steps'
      let p' := { p with steps := steps', status := pstatus }
      let ev : CoreEvent :=
        { pipelineId := p.id
          stepId := stepId
          record := newRec
          pipelineStatus := pstatus
          completedSteps := countCompletedCore steps'
          totalSteps := p.totalSteps }
      Except.ok (p', ev)

/-- Modelled from the spec: `acknowledge(pipelineId, stepId, comment)`
(§4.3 rule 4), absent from the shipped sources.  Fails with
`InvalidTransition` on a step not requiring acknowledgment and with
`NotAwaitingAcknowledgment` unless the step currently waits; otherwise it
moves the step to `completed` and emits the single event. -/

def acknowledge (g : StepGraph) (p : CorePipeline) (stepId : String)
    (comment : Option String) (now : Int) :
    Except TransitionError (CorePipeline × CoreEvent) :=
  match findStep g stepId with
  | none => Except.error TransitionError.UnknownStep
  | some sd =>
    if !sd.requiresAcknowledgment then
      Except.error TransitionError.InvalidTransition
    else if statusOf p stepId ≠ "waiting_for_acknowledgment" then
      Except.error TransitionError.NotAwaitingAcknowledgment
    else
      let old := lookupEntry p.steps stepId
      let newRec : CoreStep :=
        { status := "completed"
          message := comment.orElse (fun _ => old.bind (fun r => r.message))
          data := old.bind (fun r => r.data)
          updated_at := now }
      let steps' := setEntry p.steps stepId newRec
      let pstatus := recomputePipelineStatus g steps'
      let p' := { p with steps := steps', status := pstatus }
      let ev : CoreEvent :=
        { pipelineId := p.id
          stepId := stepId
          record := newRec
          pipelineStatus := pstatus
          completedSteps := countCompletedCore steps'
          totalSteps := p.totalSteps }
      Except.ok (p', ev)

/-- Modelled from the spec: one operation a caller can direct at a pipeline
through the core's interface (§6). -/

inductive CoreOp where
  | update (stepId requested : String) (message dataPayload : Option String) (now : Int)
  | ack (stepId : String) (comment : Option String) (now : Int)
  deriving DecidableEq

/-- Modelled from the spec: a rejected transition leaves the state intact
(§7 — never partially applied), a successful one commits. -/

def runOp (g : StepGraph) (p : CorePipeline) (op : CoreOp) : CorePipeline :=
  match op with
  | CoreOp.update stepId requested message dataPayload now =>
    match applyTransition g p stepId requested message dataPayload now with
    | Except.ok (p', _) => p'
    | Except.error _ => p
  | CoreOp.ack stepId comment now =>
    match acknowledge g p stepId comment now with
    | Except.ok (p', _) => p'
    | Except.error _ => p

def runOps (g : StepGraph) (p : CorePipeline) (ops : List CoreOp) : CorePipeline :=
  ops.foldl (runOp g) p

/-- Whether an operation is an `acknowledge` call for the given step. -/

def isAckFor (stepId : String) (op : CoreOp) : Bool :=
  match op with
  | CoreOp.ack s _ _ => s == stepId
  | _ => false

/-- `true` iff the operation list contains no `acknowledge` call for the
given step. -/

def noAckFor (stepId : String) (ops : List CoreOp) : Bool :=
  ops.all (fun op => !(isAckFor stepId op))

/-- Modelled from the spec: the EventBus topic `pipeline:<id>` as an ordered
event log; delivery to every currently-connected subscriber follows
publication order (§4.4, §5). -/

structure BusState where
  log : List CoreEvent
  deriving DecidableEq

def publish (bus : BusState) (e : CoreEvent) : BusState :=
  { log := bus.log ++ [e] }

/-- Modelled from the spec: `updateStep` through the serialized per-pipeline
critical section — a successful transition commits the new state and
publishes its single event; a failed one changes nothing and publishes
nothing (§4.3 rule 7). -/

def updateStepOnBus (g : StepGraph) (st : CorePipeline × BusState)
    (stepId requested : String) (message dataPayload : Option String)
    (now : Int) : CorePipeline × BusState :=
  match applyTransition g st.1 stepId requested message dataPayload now with
  | Except.ok (p', ev) => (p', publish st.2 ev)
  | Except.error _ => st

def stepAW : AgentStep :=
  { id := "a"
    name := "A"
    description := ""
    status := "completed"
    requiresUserInput := false
    dependencies := []
    group := none }

def stepBW : AgentStep :=
  { id := "b"
    name := "B"
    description := ""
    status := "pending"
    requiresUserInput := false
    dependencies := ["a"]
    group := none }

def p9W : WsPipeline :=
  { id := "p1"
    agent_name := "X"
    status := "initialized"
    created_at := 0
    completed_steps := 0
    total_steps := 2
    steps := [("s1", { status := "pending", message := "", updated_at := 3 })] }

def ev9W : StepStartedEvent :=
  { pipeline_id := "p1", step := "s1", timestamp := some 7 }

def ev10W : StepUpdatedEvent :=
  { pipeline_id := "p1"
    step := "s1"
    step_data := { status := "completed", message := "done", updated_at := 8 }
    pipeline_status := "in_progress"
    completed_steps := 1
    total_steps := none }

/-- The ordering the comparator of `getOrderedSteps` actually enforces
between two neighbouring displayed steps: either the second was updated more
than one second after the first, or the timestamps are within one second of
each other and the first step's id is not greater under the numeric,
case-insensitive name comparison. -/

def displayOrdered (a b : String × WsStep) : Prop :=
  b.2.updated_at - a.2.updated_at > 1 ∨
    ((a.2.updated_at - b.2.updated_at).natAbs ≤ 1 ∧
      localeCompareNumericBase a.1 b.1 ≤ 0)

def cex5P : WsPipeline :=
  { id := "p1"
    agent_name := "X"
    status := "in_progress"
    created_at := 0
    completed_steps := 2
    total_steps := 2
    steps := [("a", { status := "completed", message := "", updated_at := 11 }),
              ("b", { status := "completed", message := "", updated_at := 10 })] }

def ackGraphW : StepGraph :=
  [{ id := "c", dependencies := [], requiresAcknowledgment := true }]

def ackPipeW : CorePipeline :=
  { id := "p2"
    agentName := "Y"
    createdAt := 0
    totalSteps := 1
    steps := []
    status := "initialized" }

def ackPipeWaitingW : CorePipeline :=
  { id := "p2"
    agentName := "Y"
    createdAt := 0
    totalSteps := 1
    steps := [("c", { status := "waiting_for_acknowledgment", updated_at := 5 })]
    status := "in_progress" }

def busGraphW : StepGraph :=
  [{ id := "a", dependencies := [], requiresAcknowledgment := false },
   { id := "b", dependencies := ["a"], requiresAcknowledgment := false }]

def busPipeW : CorePipeline :=
  { id := "p1"
    agentName := "X"
    createdAt := 0
    totalSteps := 2
    steps := []
    status := "initialized" }

def busPipe1W : CorePipeline :=
  { id := "p1"
    agentName := "X"
    createdAt := 0
    totalSteps := 2
    steps := [("a", { status := "completed", updated_at := 1 })]
    status := "in_progress" }

def busPipe2W : CorePipeline :=
  { id := "p1"
    agentName := "X"
    createdAt := 0
    totalSteps := 2
    steps := [("a", { status := "completed", updated_at := 1 }),
              ("b", { status := "in_progress", updated_at := 2 })]
    status := "in_progress" }

def busEvent1W : CoreEvent :=
  { pipelineId := "p1"
    stepId := "a"
    record := { status := "completed", updated_at := 1 }
    pipelineStatus := "in_progress"
    completedSteps := 1
    totalSteps := 2 }

def busEvent2W : CoreEvent :=
  { pipelineId := "p1"
    stepId := "b"
    record := { status := "in_progress", updated_at := 2 }
    pipelineStatus := "in_progress"
    completedSteps := 1
    totalSteps := 2 }

theorem lookupEntry_setEntry_self {α : Type} (l : List (String × α)) (k : String) (v : α) :
    lookupEntry (setEntry l k v) k = some v := by
  induction l with
  | nil => simp [setEntry, lookupEntry]
  | cons hd tl ih =>
    obtain ⟨k', v'⟩ := hd
    by_cases h : k' = k
    · simp [setEntry, h, lookupEntry]
    · simp [setEntry, h, lookupEntry, ih]

theorem lookupEntry_setEntry_ne {α : Type} (l : List (String × α)) (k t : String) (v : α)
    (h : t ≠ k) : lookupEntry (setEntry l k v) t = lookupEntry l t := by
  have h' : ¬ k = t := fun hh => h hh.symm
  induction l with
  | nil => simp [setEntry, lookupEntry, h']
  | cons hd tl ih =>
    obtain ⟨k', v'⟩ := hd
    by_cases hk : k' = k
    · subst hk
      simp [setEntry, lookupEntry, h']
    · by_cases ht : k' = t
      · subst ht
        simp [setEntry, hk, lookupEntry]
      · simp [setEntry, hk, lookupEntry, ht, ih]

theorem mem_completedStepIds (steps : List AgentStep) (d : String) :
    d ∈ completedStepIds steps ↔ ∃ s ∈ steps, s.status = "completed" ∧ s.id = d := by
  simp only [completedStepIds, List.mem_map, List.mem_filter, beq_iff_eq]
  constructor
  · rintro ⟨s, ⟨hs, hst⟩, hid⟩
    exact ⟨s, hs, hst, hid⟩
  · rintro ⟨s, hs, hst, hid⟩
    exact ⟨s, ⟨hs, hst⟩, hid⟩

/-! ## Claims -/

/-- C1: For every step with at least one declared dependency, the Run action
is enabled only when every one of its dependencies has status `completed`;
if any dependency is not completed, the run is blocked.  Both the `StepCard`
gate and the `AgentDashboard` inline gate agree, the Run-Step button is
enabled only when the gate allows it, and on the (spec-modelled) core a
transition to `in_progress` fails with `DependencyNotMet` exactly when some
dependency is not `completed`. -/

theorem C1_dependency_gating (step : AgentStep) (steps : List AgentStep)
    (isRunning : Bool) (hdeps : step.dependencies ≠ []) :
    (canRun step (completedStepIds steps) = true ↔
      ∀ d ∈ step.dependencies, ∃ s ∈ steps, s.status = "completed" ∧ s.id = d) ∧
    dashboardCanRun step steps = canRun step (completedStepIds steps) ∧
    (runStepButtonDisabled isRunning step (completedStepIds steps) = false →
      ∀ d ∈ step.dependencies, ∃ s ∈ steps, s.status = "completed" ∧ s.id = d) ∧
    (∀ (g : StepGraph) (p : CorePipeline) (sid : String) (sd : StepDef)
        (m dat : Option String) (now : Int), findStep g sid = some sd →
      ((∃ dep ∈ sd.dependencies, statusOf p dep ≠ "completed") →
        applyTransition g p sid "in_progress" m dat now =
          Except.error TransitionError.DependencyNotMet) ∧
      ((∀ dep ∈ sd.dependencies, statusOf p dep = "completed") →
        ∃ p' ev, applyTransition g p sid "in_progress" m dat now =
          Except.ok (p', ev))) := by
  have hlen : step.dependencies.length ≠ 0 := by
    simpa [List.length_eq_zero] using hdeps
  have hiff : canRun step (completedStepIds steps) = true ↔
      ∀ d ∈ step.dependencies, ∃ s ∈ steps, s.status = "completed" ∧ s.id = d := by
    simp only [canRun, Bool.or_eq_true, decide_eq_true_eq, List.all_eq_true,
      List.contains, List.elem_eq_mem]
    constructor
    · intro h d hd
      rcases h with h | h
      · exact absurd h hlen
      · exact (mem_completedStepIds steps d).mp (by simpa using h d hd)
    · intro h
      refine Or.inr (fun d hd => ?_)
      simpa using (mem_completedStepIds steps d).mpr (h d hd)
  refine ⟨hiff, ?_, ?_, ?_⟩
  · simp [dashboardCanRun, canRun]
  · intro hdisabled
    have : canRun step (completedStepIds steps) = true := by
      rcases Bool.or_eq_false_iff.mp hdisabled with ⟨_, h2⟩
      simpa using h2
    exact hiff.mp this
  · intro g p sid sd m dat now hfs
    constructor
    · rintro ⟨dep, hdep, hne⟩
      have hall : (sd.dependencies.all
          (fun dep => statusOf p dep == "completed")) = false := by
        simp only [List.all_eq_false, beq_iff_eq]
        exact ⟨dep, hdep, hne⟩
      simp [applyTransition, hfs, hall]
    · intro hall
      have hall' : (sd.dependencies.all
          (fun dep => statusOf p dep == "completed")) = true := by
        simp only [List.all_eq_true, beq_iff_eq]
        exact hall
      simp only [applyTransition, hfs, hall', Bool.not_true, Bool.and_false,
        Bool.false_eq_true, if_false]
      exact ⟨_, _, rfl⟩

theorem C1_dependency_gating_witness :
    canRun stepBW (completedStepIds [stepAW, stepBW]) = true :=
  (C1_dependency_gating stepBW [stepAW, stepBW] false (by decide)).1.mpr (by decide)

/-- C3 counterexample: `updatePipelineData` copies a caller-supplied
`completed_steps` straight into the snapshot; starting from a fresh manager
(no step records) it stores the counter `5` while the step map holds zero
completed steps — the counter is not recomputable from `steps`. -/

theorem C3_counter_counterexample :
    (updatePipelineData (initialManagerData "p1" ["s1"])
        { completed_steps := some 5 } 100).completed_steps = 5 ∧
    countCompletedM (updatePipelineData (initialManagerData "p1" ["s1"])
        { completed_steps := some 5 } 100).steps = 0 ∧
    (updatePipelineData (initialManagerData "p1" ["s1"])
        { completed_steps := some 5 } 100).completed_steps ≠
      countCompletedM (updatePipelineData (initialManagerData "p1" ["s1"])
        { completed_steps := some 5 } 100).steps := by
  decide

/-- C3 (amended): after every `updateStepData` the stored `completed_steps`
equals the number of stored step records whose status is `completed`
(`recalculateCompletedSteps` recomputes it); but `updatePipelineData` copies
a caller-supplied `completed_steps` into the snapshot without recomputing it
from `steps`, so the counter is stored as mutable state that can drift from
the step map. -/

theorem C3_completed_steps_recomputed (st : ManagerData) (stepName : String)
    (stepData : StepPatch) (now : Int) :
    (updateStepData st stepName stepData now).completed_steps =
      countCompletedM (updateStepData st stepName stepData now).steps := by
  simp [updateStepData]

/-- C4 counterexample: `normalizeStatus` leaves the caller-supplied `running`
as `running` — it never yields `in_progress`; the code's mapping is exactly
the reverse of the claim, translating the core vocabulary `in_progress` to
`running`. -/

theorem C4_normalize_counterexample :
    normalizeStatus "running" = "running" ∧
    normalizeStatus "running" ≠ "in_progress" ∧
    normalizeStatus "in_progress" = "running" := by
  decide

/-- C4 (amended): the status-vocabulary translation maps the core value
`in_progress` to the caller vocabulary `running` (and keeps `running` as
`running`); it never produces `in_progress` for any input — the reverse of
the direction the claim states. -/

theorem C4_normalize_direction :
    normalizeStatus "in_progress" = "running" ∧
    normalizeStatus "running" = "running" ∧
    ∀ s, normalizeStatus s ≠ "in_progress" := by
  refine ⟨rfl, rfl, fun s => ?_⟩
  by_cases h1 : s = "in_progress" <;> by_cases h2 : s = "running" <;>
    simp [normalizeStatus, h1, h2]

/-- C6: a successful acknowledgment adds exactly one new audit record —
carrying the step name, pipeline id, timestamp and the optional comment —
in front of the history, leaves every previously stored record unchanged,
and the history query for that pipeline and step returns an entry with that
comment. -/

theorem C6_acknowledgment_audit (history : List AcknowledgmentRecord)
    (stepName pipelineId : String) (comment userId : Option String) (now : Int) :
    (addAcknowledgment stepName pipelineId comment userId now history).length =
      history.length + 1 ∧
    (addAcknowledgment stepName pipelineId comment userId now history).tail =
      history ∧
    (addAcknowledgment stepName pipelineId comment userId now history).head? =
      some { stepName := stepName, pipelineId := pipelineId, timestamp := now
             comment := comment, userId := userId } ∧
    ∃ r ∈ getAcknowledgmentHistory (some pipelineId) (some stepName)
        (addAcknowledgment stepName pipelineId comment userId now history),
      r.comment = comment ∧ r.stepName = stepName ∧
        r.pipelineId = pipelineId ∧ r.timestamp = now := by
  refine ⟨rfl, rfl, rfl, ?_⟩
  refine ⟨{ stepName := stepName, pipelineId := pipelineId, timestamp := now
            comment := comment, userId := userId }, ?_, rfl, rfl, rfl, rfl⟩
  simp [addAcknowledgment, getAcknowledgmentHistory, List.mem_filter]

/-- C7: on every (re)subscription the client first emits the subscribe for
the pipeline's topic and then fetches the full-state snapshot; a bus event
delivered while the view is still empty is not applied (the updater returns
`null`), so no event is applied before the snapshot establishes the view;
and the cleanup emits the unsubscribe for the pipeline topic and removes
exactly the event listeners the setup registered. -/

theorem C7_subscription_lifecycle (pipelineId : String) :
    (∃ rest, subscriptionSetup pipelineId =
      ClientAction.emitSubscribe pipelineId ::
        ClientAction.fetchSnapshot pipelineId :: rest) ∧
    (∀ e, handleStepUpdate pipelineId e none = none) ∧
    (∀ d now, handleStepStarted pipelineId d now none = none) ∧
    ClientAction.emitUnsubscribe pipelineId ∈ subscriptionCleanup pipelineId ∧
    removedEvents (subscriptionCleanup pipelineId) =
      listenedEvents (subscriptionSetup pipelineId) := by
  refine ⟨⟨_, rfl⟩, ?_, ?_, ?_, ?_⟩
  · intro e
    by_cases h : e.pipeline_id = pipelineId <;> simp [handleStepUpdate, h]
  · intro d now
    by_cases h : d.pipeline_id = pipelineId <;> simp [handleStepStarted, h]
  · simp [subscriptionCleanup]
  · rfl

/-- C9: the `step_started` handler never reverts a terminal pipeline status —
if the view's status is `completed` or `failed` it is left unchanged, and
otherwise it becomes `in_progress`; the targeted step's record is set to
status `running` with the event timestamp (falling back to the current
time) and a fresh message. -/

theorem C9_step_started_terminal (pipelineId : String) (d : StepStartedEvent)
    (now : Int) (p : WsPipeline) (h : d.pipeline_id = pipelineId) :
    ∃ p', handleStepStarted pipelineId d now (some p) = some p' ∧
      p'.status =
        (if p.status = "completed" ∨ p.status = "failed" then p.status
         else "in_progress") ∧
      lookupEntry p'.steps d.step = some
        { status := "running"
          message := "Running step " ++ d.step ++ "..."
          updated_at := jsOrInt d.timestamp now
          data := (lookupEntry p.steps d.step).bind (fun r => r.data) } := by
  refine ⟨{ p with
    steps := setEntry p.steps d.step
      { status := "running"
        message := "Running step " ++ d.step ++ "..."
        updated_at := jsOrInt d.timestamp now
        data := (lookupEntry p.steps d.step).bind (fun r => r.data) }
    status := if p.status ≠ "completed" ∧ p.status ≠ "failed" then "in_progress"
              else p.status }, ?_, ?_, ?_⟩
  · simp [handleStepStarted, h]
  · by_cases hc : p.status = "completed" <;> by_cases hf : p.status = "failed" <;>
      simp [hc, hf]
  · exact lookupEntry_setEntry_self _ _ _

theorem C9_step_started_terminal_witness :
    ∃ p', handleStepStarted "p1" ev9W 9 (some p9W) = some p' ∧
      p'.status =
        (if p9W.status = "completed" ∨ p9W.status = "failed" then p9W.status
         else "in_progress") ∧
      lookupEntry p'.steps ev9W.step = some
        { status := "running"
          message := "Running step " ++ ev9W.step ++ "..."
          updated_at := jsOrInt ev9W.timestamp 9
          data := (lookupEntry p9W.steps ev9W.step).bind (fun r => r.data) } :=
  C9_step_started_terminal "p1" ev9W 9 p9W rfl

/-- C10: the `step_updated` handler replaces exactly the record of the
event's step and the pipeline-level `status`, `completed_steps` and
`total_steps`; every other step record is unchanged, `total_steps` keeps its
previous value when the event carries no (or a falsy) value, and the
remaining pipeline fields are untouched. -/

theorem C10_step_update_frame (pipelineId : String) (e : StepUpdatedEvent)
    (p : WsPipeline) (h : e.pipeline_id = pipelineId) :
    ∃ p', handleStepUpdate pipelineId e (some p) = some p' ∧
      lookupEntry p'.steps e.step = some e.step_data ∧
      (∀ t, t ≠ e.step → lookupEntry p'.steps t = lookupEntry p.steps t) ∧
      p'.status = e.pipeline_status ∧
      p'.completed_steps = e.completed_steps ∧
      p'.total_steps = jsOrInt e.total_steps p.total_steps ∧
      ((e.total_steps = none ∨ e.total_steps = some 0) →
        p'.total_steps = p.total_steps) ∧
      p'.id = p.id ∧ p'.agent_name = p.agent_name ∧
        p'.created_at = p.created_at := by
  refine ⟨{ p with
    steps := setEntry p.steps e.step e.step_data
    status := e.pipeline_status
    completed_steps := e.completed_steps
    total_steps := jsOrInt e.total_steps p.total_steps },
      ?_, ?_, ?_, rfl, rfl, rfl, ?_, rfl, rfl, rfl⟩
  · simp [handleStepUpdate, h]
  · exact lookupEntry_setEntry_self _ _ _
  · intro t ht
    exact lookupEntry_setEntry_ne _ _ _ _ ht
  · rintro (hn | hz)
    · simp [hn, jsOrInt]
    · simp [hz, jsOrInt]

theorem C10_step_update_frame_witness :
    ∃ p', handleStepUpdate "p1" ev10W (some p9W) = some p' ∧
      lookupEntry p'.steps ev10W.step = some ev10W.step_data ∧
      (∀ t, t ≠ ev10W.step → lookupEntry p'.steps t = lookupEntry p9W.steps t) ∧
      p'.status = ev10W.pipeline_status ∧
      p'.completed_steps = ev10W.completed_steps ∧
      p'.total_steps = jsOrInt ev10W.total_steps p9W.total_steps ∧
      ((ev10W.total_steps = none ∨ ev10W.total_steps = some 0) →
        p'.total_steps = p9W.total_steps) ∧
      p'.id = p9W.id ∧ p'.agent_name = p9W.agent_name ∧
        p'.created_at = p9W.created_at :=
  C10_step_update_frame "p1" ev10W p9W rfl

theorem tokCmp_swap (xs ys : List NameToken) : tokCmp xs ys = -(tokCmp ys xs) := by
  induction xs generalizing ys with
  | nil => cases ys <;> simp [tokCmp]
  | cons x xs ih =>
    cases ys with
    | nil => simp [tokCmp]
    | cons y ys =>
      cases x with
      | inl m =>
        cases y with
        | inl n =>
          rcases lt_trichotomy m n with hlt | heq | hgt
          · simp [tokCmp, hlt, Nat.not_lt_of_lt hlt]
          · subst heq
            simp [tokCmp, lt_irrefl, ih ys]
          · simp [tokCmp, hgt, Nat.not_lt_of_lt hgt]
        | inr d => simp [tokCmp]
      | inr c =>
        cases y with
        | inl n => simp [tokCmp]
        | inr d =>
          rcases lt_trichotomy c d with hlt | heq | hgt
          · simp [tokCmp, hlt, not_lt_of_lt hlt]
          · subst heq
            simp [tokCmp, lt_irrefl, ih ys]
          · simp [tokCmp, hgt, not_lt_of_lt hgt]

theorem stepCompare_swap (a b : String × WsStep) :
    stepCompare a b = -(stepCompare b a) := by
  simp only [stepCompare, localeCompareNumericBase]
  have habs : (a.2.updated_at - b.2.updated_at).natAbs =
      (b.2.updated_at - a.2.updated_at).natAbs := by
    omega
  rw [habs]
  by_cases h : (b.2.updated_at - a.2.updated_at).natAbs > 1
  · simp [h]
  · simp only [if_neg h]
    exact tokCmp_swap _ _

theorem displayOrdered_iff (a b : String × WsStep) :
    displayOrdered a b ↔ stepCompare a b ≤ 0 := by
  simp only [displayOrdered, stepCompare]
  by_cases h : (a.2.updated_at - b.2.updated_at).natAbs > 1
  · simp [h]
    omega
  · simp [h]
    omega

theorem chain_insertCmp {α : Type} (cmp : α → α → Int)
    (hskew : ∀ a b, cmp a b = -(cmp b a)) (x : α) (l : List α)
    (h : List.Chain' (fun a b => cmp a b ≤ 0) l) :
    List.Chain' (fun a b => cmp a b ≤ 0) (insertCmp cmp x l) := by
  induction l with
  | nil => simp [insertCmp]
  | cons hd tl ih =>
    by_cases hx : cmp x hd < 0
    · simp only [insertCmp, if_pos hx]
      exact List.Chain'.cons (le_of_lt hx) h
    · have hhx : cmp hd x ≤ 0 := by
        have := hskew x hd
        omega
      simp only [insertCmp, if_neg hx]
      cases tl with
      | nil => simpa [insertCmp] using hhx
      | cons hd2 tl2 =>
        have htail : List.Chain' (fun a b => cmp a b ≤ 0) (hd2 :: tl2) :=
          (List.chain'_cons.mp h).2
        have hrel : cmp hd hd2 ≤ 0 := (List.chain'_cons.mp h).1
        by_cases hx2 : cmp x hd2 < 0
        · simp only [insertCmp, if_pos hx2]
          exact List.Chain'.cons hhx (List.Chain'.cons (le_of_lt hx2) htail)
        · have := ih htail
          simp only [insertCmp, if_neg hx2] at this ⊢
          exact List.Chain'.cons hrel this

theorem chain_sortCmp {α : Type} (cmp : α → α → Int)
    (hskew : ∀ a b, cmp a b = -(cmp b a)) (l : List α) :
    List.Chain' (fun a b => cmp a b ≤ 0) (sortCmp cmp l) := by
  suffices hgen : ∀ acc, List.Chain' (fun a b => cmp a b ≤ 0) acc →
      List.Chain' (fun a b => cmp a b ≤ 0)
        (l.foldl (fun acc x => insertCmp cmp x acc) acc) by
    exact hgen [] (by simp)
  induction l with
  | nil => exact fun acc hacc => hacc
  | cons hd tl ih =>
    intro acc hacc
    exact ih _ (chain_insertCmp cmp hskew hd acc hacc)

/-- C5 counterexample: with step `a` updated at time 11 and step `b` at time
10 (timestamps one second apart, so within the comparator's one-second
tolerance), `getOrderedSteps` puts `a` first by name even though `a` was
updated strictly later — the output is not sorted by `updatedAt` ascending
with ties broken by id. -/

theorem C5_ordering_counterexample :
    (getOrderedSteps (some cex5P)).map (fun e => (e.1, e.2.updated_at)) =
      [("a", 11), ("b", 10)] ∧
    ¬((11 : Int) < 10 ∨ (11 : Int) = 10) := by
  constructor
  · rfl
  · decide

/-- C5 (amended): `getOrderedSteps` orders steps by `updated_at` only when
the timestamps differ by more than one second; any two neighbouring steps
in the output either are more than one second apart in ascending timestamp
order, or lie within one second of each other and are ordered by the
numeric, case-insensitive comparison of their ids (the comparator is not
transitive across the one-second tolerance, so only neighbouring pairs are
so related). -/

theorem C5_display_order (pipelineData : Option WsPipeline) :
    List.Chain' displayOrdered (getOrderedSteps pipelineData) := by
  cases pipelineData with
  | none => simp [getOrderedSteps]
  | some pd =>
    have h := chain_sortCmp stepCompare stepCompare_swap pd.steps
    simp only [getOrderedSteps]
    exact h.imp (fun a b hab => (displayOrdered_iff a b).mpr hab)

theorem applyTransition_ok_steps (g : StepGraph) (p : CorePipeline)
    (stepId requested : String) (message dataPayload : Option String) (now : Int)
    (p' : CorePipeline) (ev : CoreEvent)
    (h : applyTransition g p stepId requested message dataPayload now =
      Except.ok (p', ev)) :
    ∃ sd rec, findStep g stepId = some sd ∧
      CoreStep.status rec =
        (if requested == "completed" && sd.requiresAcknowledgment then
          "waiting_for_acknowledgment" else requested) ∧
      p'.steps = setEntry p.steps stepId rec := by
  cases hfs : findStep g stepId with
  | none => simp [applyTransition, hfs] at h
  | some sd =>
    simp only [applyTransition, hfs] at h
    split at h
    · cases h
    · simp only [Except.ok.injEq, Prod.mk.injEq] at h
      obtain ⟨h1, h2⟩ := h
      subst h1
      exact ⟨sd, _, rfl, rfl, rfl⟩

theorem acknowledge_ok_steps (g : StepGraph) (p : CorePipeline)
    (stepId : String) (comment : Option String) (now : Int)
    (p' : CorePipeline) (ev : CoreEvent)
    (h : acknowledge g p stepId comment now = Except.ok (p', ev)) :
    ∃ sd rec, findStep g stepId = some sd ∧
      CoreStep.status rec = "completed" ∧
      p'.steps = setEntry p.steps stepId rec := by
  cases hfs : findStep g stepId with
  | none => simp [acknowledge, hfs] at h
  | some sd =>
    simp only [acknowledge, hfs] at h
    split at h
    · cases h
    · split at h
      · cases h
      · simp only [Except.ok.injEq, Prod.mk.injEq] at h
        obtain ⟨h1, h2⟩ := h
        subst h1
        exact ⟨sd, _, rfl, rfl, rfl⟩

theorem not_completed_runOp (g : StepGraph) (s : String) (d : StepDef)
    (hfind : findStep g s = some d) (hack : d.requiresAcknowledgment = true)
    (p : CorePipeline) (op : CoreOp) (hnc : statusOf p s ≠ "completed")
    (hop : isAckFor s op = false) :
    statusOf (runOp g p op) s ≠ "completed" := by
  cases op with
  | update sid req m dat now =>
    simp only [runOp]
    cases happly : applyTransition g p sid req m dat now with
    | error e => exact hnc
    | ok pr =>
      obtain ⟨p', ev⟩ := pr
      obtain ⟨sd, rec, hfs, hst, hsteps⟩ :=
        applyTransition_ok_steps g p sid req m dat now p' ev happly
      by_cases hss : s = sid
      · subst hss
        have hsd : sd = d := by
          rw [hfind] at hfs
          exact (Option.some.injEq _ _).mp hfs.symm
        have hstat : statusOf p' s = CoreStep.status rec := by
          simp [statusOf, hsteps, lookupEntry_setEntry_self]
        rw [hstat, hst, hsd, hack]
        cases hb : (req == "completed") with
        | true => simp
        | false =>
          simp only [hb, Bool.false_and, Bool.false_eq_true, if_false]
          intro hcon
          rw [hcon] at hb
          simp at hb
      · have hstat : statusOf p' s = statusOf p s := by
          simp [statusOf, hsteps, lookupEntry_setEntry_ne _ _ _ _ hss]
        rw [hstat]
        exact hnc
  | ack sid c now =>
    simp only [runOp]
    cases hap : acknowledge g p sid c now with
    | error e => exact hnc
    | ok pr =>
      obtain ⟨p', ev⟩ := pr
      obtain ⟨sd, rec, hfs, hst, hsteps⟩ :=
        acknowledge_ok_steps g p sid c now p' ev hap
      have hss : s ≠ sid := by
        simp only [isAckFor, beq_eq_false_iff_ne, ne_eq] at hop
        exact fun hc => hop hc.symm
      have hstat : statusOf p' s = statusOf p s := by
        simp [statusOf, hsteps, lookupEntry_setEntry_ne _ _ _ _ hss]
      rw [hstat]
      exact hnc

theorem not_completed_runOps (g : StepGraph) (s : String) (d : StepDef)
    (hfind : findStep g s = some d) (hack : d.requiresAcknowledgment = true) :
    ∀ (ops : List CoreOp) (p : CorePipeline), statusOf p s ≠ "completed" →
      noAckFor s ops = true → statusOf (runOps g p ops) s ≠ "completed" := by
  intro ops
  induction ops with
  | nil => exact fun p hnc _ => hnc
  | cons op ops ih =>
    intro p hnc hno
    simp only [noAckFor, List.all_cons, Bool.and_eq_true, Bool.not_eq_true'] at hno
    have h1 := not_completed_runOp g s d hfind hack p op hnc hno.1
    exact ih _ h1 (by simpa [noAckFor] using hno.2)

/-- C2: for a step whose definition carries `requiresAcknowledgment = true`,
reporting it `completed` through `applyTransition` succeeds but yields
observed status `waiting_for_acknowledgment` (never `completed`); starting
from any state in which the step is not `completed`, no sequence of
operations that contains no `acknowledge` call for that step can make its
observed status `completed`; and from `waiting_for_acknowledgment` an
explicit `acknowledge` call succeeds and moves it to `completed`.
(The backend `PipelineState` is modelled from the spec, §4.3 rule 4.) -/

theorem C2_acknowledgment_gating (g : StepGraph) (p : CorePipeline) (s : String)
    (d : StepDef) (hfind : findStep g s = some d)
    (hack : d.requiresAcknowledgment = true) :
    (∀ m dat now, ∃ p' ev,
      applyTransition g p s "completed" m dat now = Except.ok (p', ev) ∧
      statusOf p' s = "waiting_for_acknowledgment" ∧
      statusOf p' s ≠ "completed") ∧
    (statusOf p s ≠ "completed" → ∀ ops, noAckFor s ops = true →
      statusOf (runOps g p ops) s ≠ "completed") ∧
    (statusOf p s = "waiting_for_acknowledgment" → ∀ c now, ∃ p' ev,
      acknowledge g p s c now = Except.ok (p', ev) ∧
      statusOf p' s = "completed") := by
  refine ⟨?_, ?_, ?_⟩
  · intro m dat now
    simp only [applyTransition, hfind, hack]
    simp only [show (("completed" : String) == "in_progress") = false from rfl,
      show (("completed" : String) == "completed") = true from rfl,
      Bool.false_and, Bool.true_and, Bool.false_eq_true, if_false, if_true]
    refine ⟨_, _, rfl, ?_, ?_⟩ <;>
      simp [statusOf, lookupEntry_setEntry_self]
  · intro hnc ops hno
    exact not_completed_runOps g s d hfind hack ops p hnc hno
  · intro hw c now
    simp only [acknowledge, hfind, hack, hw]
    simp only [Bool.not_true, Bool.false_eq_true, if_false, ne_eq,
      not_true_eq_false, reduceIte]
    refine ⟨_, _, rfl, ?_⟩
    simp [statusOf, lookupEntry_setEntry_self]

theorem C2_acknowledgment_gating_witness :
    (∃ p' ev, applyTransition ackGraphW ackPipeW "c" "completed" none none 5 =
        Except.ok (p', ev) ∧
      statusOf p' "c" = "waiting_for_acknowledgment" ∧
      statusOf p' "c" ≠ "completed") ∧
    statusOf (runOps ackGraphW ackPipeWaitingW
      [CoreOp.update "c" "completed" none none 7]) "c" ≠ "completed" ∧
    (∃ p' ev, acknowledge ackGraphW ackPipeWaitingW "c" (some "looks good") 6 =
        Except.ok (p', ev) ∧
      statusOf p' "c" = "completed") := by
  refine ⟨?_, ?_, ?_⟩
  · exact (C2_acknowledgment_gating ackGraphW ackPipeW "c"
      { id := "c", dependencies := [], requiresAcknowledgment := true }
      (by decide) (by decide)).1 none none 5
  · exact (C2_acknowledgment_gating ackGraphW ackPipeWaitingW "c"
      { id := "c", dependencies := [], requiresAcknowledgment := true }
      (by decide) (by decide)).2.1 (by decide)
      [CoreOp.update "c" "completed" none none 7] (by decide)
  · exact (C2_acknowledgment_gating ackGraphW ackPipeWaitingW "c"
      { id := "c", dependencies := [], requiresAcknowledgment := true }
      (by decide) (by decide)).2.2 (by decide) (some "looks good") 6

/-- C8: through the serialized per-pipeline critical section, a successful
transition publishes exactly one event on the pipeline's ordered log and a
failed one publishes nothing; for two sequential successful transitions
(step `a` then step `b`) every subscriber's view of the log contains the
`a` event strictly before the `b` event, with no reordering.  (The backend
EventBus is modelled from the spec, §4.3 rule 7, §4.4, §5.) -/

theorem C8_event_ordering (g : StepGraph) (p : CorePipeline) (bus : BusState)
    (stepA reqA : String) (mA dA : Option String) (nA : Int)
    (stepB reqB : String) (mB dB : Option String) (nB : Int)
    (p1 p2 : CorePipeline) (e1 e2 : CoreEvent)
    (h1 : applyTransition g p stepA reqA mA dA nA = Except.ok (p1, e1))
    (h2 : applyTransition g p1 stepB reqB mB dB nB = Except.ok (p2, e2)) :
    updateStepOnBus g (p, bus) stepA reqA mA dA nA =
      (p1, { log := bus.log ++ [e1] }) ∧
    updateStepOnBus g (updateStepOnBus g (p, bus) stepA reqA mA dA nA)
        stepB reqB mB dB nB =
      (p2, { log := bus.log ++ [e1] ++ [e2] }) ∧
    List.Sublist [e1, e2] (bus.log ++ [e1] ++ [e2]) := by
  have ha : updateStepOnBus g (p, bus) stepA reqA mA dA nA =
      (p1, { log := bus.log ++ [e1] }) := by
    simp [updateStepOnBus, h1, publish]
  refine ⟨ha, ?_, ?_⟩
  · rw [ha]
    simp [updateStepOnBus, h2, publish]
  · rw [List.append_assoc]
    exact (bus.log).sublist_append_right ([e1] ++ [e2])

theorem C8_event_ordering_witness :
    updateStepOnBus busGraphW
      (updateStepOnBus busGraphW (busPipeW, { log := [] }) "a" "completed"
        none none 1) "b" "in_progress" none none 2 =
      (busPipe2W, { log := [busEvent1W, busEvent2W] }) := by
  have h := (C8_event_ordering busGraphW busPipeW { log := [] } "a" "completed"
    none none 1 "b" "in_progress" none none 2 busPipe1W busPipe2W
    busEvent1W busEvent2W rfl rfl).2.1
  simpa using h

end APV

